import Mathlib

/-!
Verification of the `mapfile` MAP-file parser (package `mapfile`, plus the
`map_dump` front end). The definitions below are a shallow embedding of the
Go source: each Go function is translated into a Lean function of the same
name. Go's three-way outcome (returned value, returned `error`, runtime
panic) is made explicit by the `GoResult` type. Machine integers
(`uint64`, `int`) are modelled as `Nat` together with explicit range checks
and an explicit two's-complement wrap where the source converts `uint64` to
`int`. Strings are modelled by Lean's `String`; the source only ever slices
and splits ASCII text, for which Go's byte indexing and Lean's character
indexing agree, and all index arithmetic is performed on `String.toList`.
-/

namespace Mapfile

/-- Outcome of running a piece of Go code: a value, a returned `error`, or a
runtime panic (index out of range, slice bounds, explicit `panic`). -/
inductive GoResult (α : Type) where
  | ok : α → GoResult α
  | err : String → GoResult α
  | crash : String → GoResult α
deriving Repr, DecidableEq

namespace GoResult

def bind : GoResult α → (α → GoResult β) → GoResult β
  | ok a, f => f a
  | err e, _ => err e
  | crash e, _ => crash e

instance : Monad GoResult where
  pure := ok
  bind := bind

def isOk : GoResult α → Bool
  | ok _ => true
  | _ => false

def isErr : GoResult α → Bool
  | err _ => true
  | _ => false

def isCrash : GoResult α → Bool
  | crash _ => true
  | _ => false

end GoResult

/-- Go's `xs[i]` on a slice: the element when `i` is in range, and a runtime
panic otherwise. -/
def goIndex (xs : List α) (i : Nat) : GoResult α :=
  match xs.get? i with
  | some x => .ok x
  | none => .crash "runtime error: index out of range"

/-- Character class used by `strings.Fields` and `strings.TrimSpace`
(`unicode.IsSpace` restricted to the code points that can occur here). -/
def isGoSpace (c : Char) : Bool :=
  c = ' ' || c = '\t' || c = '\n' || c = '\x0b' || c = '\x0c' || c = '\r'

/-- strings.TrimSpace: drop leading and trailing whitespace. -/
def goTrimSpace (s : String) : String :=
  String.mk (((s.toList.dropWhile isGoSpace).reverse.dropWhile isGoSpace).reverse)

/-- strings.HasPrefix. -/
def hasPre (s pre : String) : Bool :=
  pre.toList.isPrefixOf s.toList

/-- strings.TrimPrefix. -/
def trimPre (s pre : String) : String :=
  if hasPre s pre then String.mk (s.toList.drop pre.length) else s

/-- strings.HasSuffix. -/
def hasSuf (s suf : String) : Bool :=
  suf.toList.isSuffixOf s.toList

/-- strings.TrimSuffix. -/
def trimSuf (s suf : String) : String :=
  if hasSuf s suf then String.mk (s.toList.take (s.length - suf.length)) else s

/-- Helper for `goFields`: cut a character list at every separator character,
keeping empty pieces. -/
def splitOnChar (sep : Char) : List Char → List (List Char)
  | [] => [[]]
  | c :: cs =>
    if c = sep then [] :: splitOnChar sep cs
    else
      match splitOnChar sep cs with
      | [] => [[c]]
      | p :: ps => (c :: p) :: ps

/-- strings.Split with a one-character separator. -/
def goSplit (s : String) (sep : Char) : List String :=
  (splitOnChar sep s.toList).map String.mk

/-- Helper for `goFields`: cut a character list at every whitespace
character, keeping empty pieces. -/
def fieldsAux : List Char → List (List Char)
  | [] => [[]]
  | c :: cs =>
    if isGoSpace c then [] :: fieldsAux cs
    else
      match fieldsAux cs with
      | [] => [[c]]
      | p :: ps => (c :: p) :: ps

/-- strings.Fields: split around runs of whitespace; no empty fields. -/
def goFields (s : String) : List String :=
  ((fieldsAux s.toList).filter (fun p => p ≠ [])).map String.mk

def isHexDigit (c : Char) : Bool :=
  ('0' ≤ c && c ≤ '9') || ('a' ≤ c && c ≤ 'f') || ('A' ≤ c && c ≤ 'F')

def hexDigitVal (c : Char) : Nat :=
  if '0' ≤ c && c ≤ '9' then c.toNat - '0'.toNat
  else if 'a' ≤ c && c ≤ 'f' then c.toNat - 'a'.toNat + 10
  else if 'A' ≤ c && c ≤ 'F' then c.toNat - 'A'.toNat + 10
  else 0

def hexVal (cs : List Char) : Nat :=
  cs.foldl (fun acc c => acc * 16 + hexDigitVal c) 0

/-- strconv.ParseUint(s, 16, 64): hexadecimal digits only (no sign, no `0x`
markers, no underscores when a base is given), nonempty, value below 2^64;
failures are returned errors, never panics. -/
def goParseUintHex (s : String) : GoResult Nat :=
  if s.toList = [] then
    .err ("strconv.ParseUint: parsing \"" ++ s ++ "\": invalid syntax")
  else if s.toList.all isHexDigit then
    if hexVal s.toList < 2 ^ 64 then .ok (hexVal s.toList)
    else .err ("strconv.ParseUint: parsing \"" ++ s ++ "\": value out of range")
  else .err ("strconv.ParseUint: parsing \"" ++ s ++ "\": invalid syntax")

/-- Go's conversion `int(u)` of a `uint64` to a 64-bit signed `int`:
two's-complement reinterpretation. -/
def int64OfUint64 (n : Nat) : Int :=
  if n < 2 ^ 63 then (n : Int) else (n : Int) - 2 ^ 64

/-- SegmentOffset specifies a segment relative offset
(struct `SegmentOffset` of mapfile.go). -/
structure SegmentOffset where
  SegNum : Int
  Offset : Nat
deriving Repr, DecidableEq

/-- parseSegmentOffset parses the string representation of the given segment
offset (mapfile.go). `strings.Split(s, ":")` keeps every piece, so
`parts[1]` panics when the input has no colon, and pieces after the second
colon are never looked at. -/
def parseSegmentOffset (s : String) : GoResult SegmentOffset := do
  let parts := goSplit s ':'
  let rawSegNum ← goIndex parts 0
  let segNum ← goParseUintHex rawSegNum
  let rawOffset ← goIndex parts 1
  let offset ← goParseUintHex rawOffset
  .ok ⟨int64OfUint64 segNum, offset⟩

/-- SectionType specifies the type of a section (code or data).
The numeric values follow the Go constants: `unknown` stands for the zero
value of the `uint8`-backed enumeration. -/
inductive SectionType where
  | unknown
  | code
  | data
deriving Repr, DecidableEq

/-- Modelled from the spec: `SectionTypeFromString` is produced by the
`string2enum` generator and its generated file is not part of the sources;
the spec states that the tag `"CODE"` maps to Code, `"DATA"` maps to Data,
and unrecognized tags yield a sentinel "unknown" (the enumeration's zero
value). The CODE/DATA spellings also appear as `-linecomment` annotations
on the Go constants. -/
def SectionTypeFromString (s : String) : SectionType :=
  if s = "CODE" then .code
  else if s = "DATA" then .data
  else .unknown

/-- Section tracks section linkage information (struct `Section` of
mapfile.go). `Size` is a Go `int`, hence `Int` under 64-bit wrap. The Go
field `Type` is spelled `Typ` because `Type` is a Lean keyword. -/
structure Section where
  Name : String
  Start : SegmentOffset
  Size : Int
  Typ : SectionType
deriving Repr, DecidableEq

/-- parseSection parses the string representation of the given section
(mapfile.go, readLines-based version: no ok-flag, the caller filters blank
lines, and missing fields panic via the index accesses). -/
def parseSection (s : String) : GoResult Section := do
  let fields := goFields s
  let rawStart ← goIndex fields 0
  let start ← parseSegmentOffset rawStart
  let f1 ← goIndex fields 1
  let rawSize := trimSuf f1 "H"
  let size ← goParseUintHex rawSize
  let name ← goIndex fields 2
  let f3 ← goIndex fields 3
  .ok ⟨name, start, int64OfUint64 size, SectionTypeFromString f3⟩

/-- Symbol is a symbol with linker information (struct `Symbol` of
mapfile.go). `Name` (demangled) is always left empty by the parser. -/
structure Symbol where
  Name : String
  MangledName : String
  Addr : Nat
  Start : SegmentOffset
  ObjectName : String
  IsFunc : Bool
  IsStatic : Bool
deriving Repr, DecidableEq

/-- parseSymbol parses the string representation of the given symbol
(mapfile.go, readLines-based version). A 5th field other than the literal
tag `"f"` hits an explicit `panic`; short lines panic via the index
accesses; the object name is the last field. -/
def parseSymbol (s : String) : GoResult Symbol := do
  let fields := goFields s
  let rawStart ← goIndex fields 0
  let start ← parseSegmentOffset rawStart
  let mangledName ← goIndex fields 1
  let rawAddr ← goIndex fields 2
  let addr ← goParseUintHex rawAddr
  let isFunc ←
    if fields.length = 5 then do
      let rawSymbolType ← goIndex fields 3
      if rawSymbolType = "f" then pure true
      else
        .crash ("support for symbol type \"" ++ rawSymbolType ++ "\" not yet implemented")
    else pure false
  let objectName ← goIndex fields (fields.length - 1)
  .ok ⟨"", mangledName, addr, start, objectName, isFunc, false⟩

/-- Calendar timestamp produced by `time.Parse`; Go's zero `time.Time`
(January 1 of year 1, midnight) is the record of all-minimal fields. -/
structure DateTime where
  year : Nat
  month : Nat
  day : Nat
  hour : Nat
  minute : Nat
  second : Nat
deriving Repr, DecidableEq

/-- Go's zero `time.Time`. -/
def dateZero : DateTime := ⟨1, 1, 1, 0, 0, 0⟩

def isDigitCh (c : Char) : Bool := '0' ≤ c && c ≤ '9'

def digitVal (c : Char) : Nat := c.toNat - '0'.toNat

/-- Consume one expected literal character of the layout. -/
def parseLitCh (c : Char) : List Char → Option (List Char)
  | d :: rest => if d = c then some rest else none
  | [] => none

/-- Case-insensitive prefix test, as used by Go `time`'s name lookup. -/
def ciHasPre (name v : List Char) : Bool :=
  name.length ≤ v.length &&
    ((v.take name.length).map Char.toLower == name.map Char.toLower)

/-- Go `time.lookup`: find the first table entry that is a (case-insensitive)
prefix of the value; yield its index and the remaining value. -/
def lookupName : List String → Nat → List Char → Option (Nat × List Char)
  | [], _, _ => none
  | n :: ns, i, v =>
    if ciHasPre n.toList v then some (i, v.drop n.toList.length)
    else lookupName ns (i + 1) v

def shortDayNames : List String :=
  ["Sun", "Mon", "Tue", "Wed", "Thu", "Fri", "Sat"]

def shortMonthNames : List String :=
  ["Jan", "Feb", "Mar", "Apr", "May", "Jun",
   "Jul", "Aug", "Sep", "Oct", "Nov", "Dec"]

/-- Go `time.getnum` with `fixed = false`: one or two decimal digits. -/
def getnum12 : List Char → Option (Nat × List Char)
  | [] => none
  | [a] => if isDigitCh a then some (digitVal a, []) else none
  | a :: b :: rest =>
    if isDigitCh a then
      if isDigitCh b then some (digitVal a * 10 + digitVal b, rest)
      else some (digitVal a, b :: rest)
    else none

/-- Go `time.getnum` with `fixed = true`: exactly two decimal digits. -/
def getnum2 : List Char → Option (Nat × List Char)
  | a :: b :: rest =>
    if isDigitCh a && isDigitCh b then
      some (digitVal a * 10 + digitVal b, rest)
    else none
  | _ => none

/-- The four-digit year of the `2006` layout element. -/
def getnum4 : List Char → Option (Nat × List Char)
  | a :: b :: c :: d :: rest =>
    if isDigitCh a && isDigitCh b && isDigitCh c && isDigitCh d then
      some (digitVal a * 1000 + digitVal b * 100 + digitVal c * 10 + digitVal d, rest)
    else none
  | _ => none

def isLeapYear (y : Nat) : Bool :=
  y % 4 = 0 && (y % 100 ≠ 0 || y % 400 = 0)

def daysIn (month year : Nat) : Nat :=
  if month = 2 then (if isLeapYear year then 29 else 28)
  else if month = 4 || month = 6 || month = 9 || month = 11 then 30
  else 31

/-- time.Parse with the `time.ANSIC` reference layout
`"Mon Jan _2 15:04:05 2006"`: day-of-week name (validated, value unused),
month name, optionally space-padded 1–2 digit day, 1–2 digit hour, 2-digit
minute and second, 4-digit year, nothing left over, and the field ranges
checked (hour below 24, minute and second below 60, day within the month). -/
def ansicParse (s : String) : Option DateTime := do
  let v := s.toList
  let (_, v) ← lookupName shortDayNames 0 v
  let v ← parseLitCh ' ' v
  let (monthIdx, v) ← lookupName shortMonthNames 0 v
  let month := monthIdx + 1
  let v ← parseLitCh ' ' v
  let v := if v.head? = some ' ' then v.drop 1 else v
  let (day, v) ← getnum12 v
  let v ← parseLitCh ' ' v
  let (hour, v) ← getnum12 v
  let v ← parseLitCh ':' v
  let (minute, v) ← getnum2 v
  let v ← parseLitCh ':' v
  let (second, v) ← getnum2 v
  let v ← parseLitCh ' ' v
  let (year, v) ← getnum4 v
  if v = [] && hour < 24 && minute < 60 && second < 60 &&
      1 ≤ day && day ≤ daysIn month year then
    some ⟨year, month, day, hour, minute, second⟩
  else none

/-- Map is a symbol map file (struct `Map` of mapfile.go); the defaults are
the Go zero values given by `m := &Map{}`. -/
structure Map where
  Name : String := ""
  Date : DateTime := dateZero
  BaseAddr : Nat := 0
  Entry : SegmentOffset := ⟨0, 0⟩
  Sects : List Section := []
  Syms : List Symbol := []
deriving Repr, DecidableEq

/-- hasFields reports whether the given line contains the specified fields,
as separated by whitespace (mapfile.go). -/
def hasFields (line : String) (fields : List String) : Bool :=
  goFields line == fields

/-- Field tokens of the section-table header line. -/
def sectHeaderFields : List String := ["Start", "Length", "Name", "Class"]

/-- Field tokens of the public-symbol-table header line. -/
def symHeaderFields : List String :=
  ["Address", "Publics", "by", "Value", "Rva+Base", "Lib:Object"]

/-- Body of the `parseSections` loop: parse sections from the lines after
the header until a blank line or the end of input, also counting the
consumed lines. -/
def parseSectionsLoop : List String → GoResult (List Section × Nat)
  | [] => .ok ([], 0)
  | line :: rest =>
    if line.length = 0 then .ok ([], 0)
    else
      match parseSection line with
      | .err e => .err e
      | .crash e => .crash e
      | .ok sect =>
        match parseSectionsLoop rest with
        | .err e => .err e
        | .crash e => .crash e
        | .ok (sects, k) => .ok (sect :: sects, k + 1)

/-- parseSections parses a list of sections from the given lines, terminated
by a blank line (mapfile.go); `lines` starts at the header line, and the
returned count includes the header. -/
def parseSections (lines : List String) : GoResult (List Section × Nat) :=
  match parseSectionsLoop (lines.drop 1) with
  | .err e => .err e
  | .crash e => .crash e
  | .ok (sects, k) => .ok (sects, 1 + k)

/-- Body of the `parseSymbols` loop: parse symbols until a blank line or the
end of input, tagging each with the block's static-ness. -/
def parseSymbolsLoop (isStatic : Bool) : List String → GoResult (List Symbol × Nat)
  | [] => .ok ([], 0)
  | line :: rest =>
    if line.length = 0 then .ok ([], 0)
    else
      match parseSymbol line with
      | .err e => .err e
      | .crash e => .crash e
      | .ok sym =>
        match parseSymbolsLoop isStatic rest with
        | .err e => .err e
        | .crash e => .crash e
        | .ok (syms, k) => .ok ({ sym with IsStatic := isStatic } :: syms, k + 1)

/-- parseSymbols parses a list of symbols from the given lines, terminated by
a blank line (mapfile.go): `lines[0]` is the header (a `Static symbols`
header marks the block static), `lines[1]` must be blank — and is read
unconditionally, so a header with no following line panics with an index
out of range. -/
def parseSymbols (lines : List String) : GoResult (List Symbol × Nat) :=
  match lines with
  | [] => .crash "runtime error: index out of range"
  | header :: rest =>
    let isStatic := hasPre header "Static symbols"
    match rest with
    | [] => .crash "runtime error: index out of range [1] with length 1"
    | emptyLine :: rest2 =>
      if emptyLine.length ≠ 0 then
        .err ("unexpected line between header and list of symbols; expected empty line, got \"" ++ emptyLine ++ "\"")
      else
        match parseSymbolsLoop isStatic rest2 with
        | .err e => .err e
        | .crash e => .crash e
        | .ok (syms, k) => .ok (syms, 2 + k)

/-- Body of `Parse`'s scan loop over every line after the first: the Go
`switch` dispatch in source order (timestamp, base address, section-table
header, symbol-table headers, entry point; `FIXUPS:` lines, blank lines and
unrecognized lines all just continue). After a block the loop resumes right
after the block's consumed lines (`i += n - 1` followed by `i++`). The
`fuel` argument only makes the recursion structural (each step consumes at
least one line, so any fuel of at least the number of lines — as supplied by
`parseAux` — gives the loop's behaviour; see `parseAuxF_fuel`). The loop body proper is
`parseStep`, abstracted over the continuation `recur` that scans the lines
after the current dispatch. -/
def parseStep (recur : List String → Map → GoResult Map)
    (line : String) (rest : List String) (m : Map) : GoResult Map :=
  if hasPre line "Timestamp is " then
    if 24 ≤ line.length then
      let rawDate := String.mk ((line.toList.drop 23).take (line.length - 1 - 23))
      match ansicParse rawDate with
      | some date => recur rest { m with Date := date }
      | none => .err ("parsing time \"" ++ rawDate ++ "\" as ANSIC")
    else .crash "runtime error: slice bounds out of range"
  else if hasPre line "Preferred load address is " then
    match goParseUintHex (String.mk (line.toList.drop 26)) with
    | .ok baseAddr => recur rest { m with BaseAddr := baseAddr }
    | .err e => .err e
    | .crash e => .crash e
  else if hasFields line sectHeaderFields then
    match parseSections (line :: rest) with
    | .ok (sects, n) => recur (rest.drop (n - 1)) { m with Sects := m.Sects ++ sects }
    | .err e => .err e
    | .crash e => .crash e
  else if hasFields line symHeaderFields || hasPre line "Static symbols" then
    match parseSymbols (line :: rest) with
    | .ok (syms, n) => recur (rest.drop (n - 1)) { m with Syms := m.Syms ++ syms }
    | .err e => .err e
    | .crash e => .crash e
  else if hasPre line "entry point at" then
    match parseSegmentOffset (goTrimSpace (trimPre line "entry point at")) with
    | .ok entry => recur rest { m with Entry := entry }
    | .err e => .err e
    | .crash e => .crash e
  else
    recur rest m

/-- The fuelled scan loop: one `parseStep` per line. -/
def parseAuxF : Nat → List String → Map → GoResult Map
  | _, [], m => .ok m
  | 0, _ :: _, _ => .crash "out of fuel"
  | fuel + 1, line :: rest, m => parseStep (parseAuxF fuel) line rest m

/-- The scan loop, with just enough fuel for its own line list. -/
def parseAux (lines : List String) (m : Map) : GoResult Map :=
  parseAuxF lines.length lines m

/-- Parse parses the given symbol map file (mapfile.go, readLines-based
version), here taken as the list of already-read, whitespace-trimmed lines:
line 0 unconditionally becomes the linker output name, the rest is scanned
by `parseAux`. -/
def Parse (lines : List String) : GoResult Map :=
  match lines with
  | [] => .ok {}
  | l0 :: rest => parseAux rest { Name := l0 }

/-- Line splitting of `bufio.Scanner` with `ScanLines`: split at every
newline, drop one carriage return at the end of a line, and produce no final
empty line for input ending in a newline (and no lines at all for empty
input). -/
def goSplitLines (s : String) : List String :=
  if s.toList = [] then []
  else
    let parts := splitOnChar '\n' s.toList
    let parts := if s.toList.getLast? = some '\n' then parts.dropLast else parts
    parts.map (fun l => String.mk (if l.getLast? = some '\r' then l.dropLast else l))

/-- readLines reads and returns the lines of r, trimming spaces of each line
(mapfile.go). -/
def readLines (s : String) : List String :=
  (goSplitLines s).map goTrimSpace

/-- ParseString parses the given symbol map file, reading from s
(mapfile.go). -/
def ParseString (s : String) : GoResult Map :=
  Parse (readLines s)

def hexDigitUpper (n : Nat) : Char :=
  if n < 10 then Char.ofNat (48 + n) else Char.ofNat (55 + n)

/-- Digits of `n` in base 16, most significant first, accumulated into
`acc`; the fuel argument makes the recursion structural, and `n` itself is
always enough fuel since `n / 16 < n`. -/
def hexUpperAux : Nat → Nat → List Char → List Char
  | 0, _, acc => acc
  | fuel + 1, n, acc =>
    if n = 0 then acc
    else hexUpperAux fuel (n / 16) (hexDigitUpper (n % 16) :: acc)

/-- fmt's `%X` verb on a `uint64`: uppercase hexadecimal, no leading
zeros, `"0"` for zero. -/
def goHexUpper (n : Nat) : String :=
  if n = 0 then "0" else String.mk (hexUpperAux n n [])

/-- fmt's `%08X` verb: `%X` left-padded with zeros to at least 8 digits. -/
def goHex08 (n : Nat) : String :=
  let s := goHexUpper n
  if s.length < 8 then String.mk (List.replicate (8 - s.length) '0') ++ s else s

/-- dumpIdaScript converts the given symbol map file to a Python script for
loading the symbols into IDA (cmd/map_dump): one
`set_name(0x%08X, "%s", SN_NOWARN)` line per symbol, in `Syms` order; the
successive `fmt.Printf` outputs are modelled as one concatenated string. -/
def dumpIdaScript (m : Map) : String :=
  m.Syms.foldl
    (fun out sym =>
      out ++ "set_name(0x" ++ goHex08 sym.Addr ++ ", \"" ++ sym.MangledName ++ "\", SN_NOWARN)\n")
    ""

/-- Number of leading lines before the first blank line (or the end): the
number of entries a block loop consumes. -/
def linesUntilBlank : List String → Nat
  | [] => 0
  | l :: ls => if l.length = 0 then 0 else linesUntilBlank ls + 1

/-- Reference count of a MAP line list's block contents, mirroring the scan
loop's dispatch and block consumption but computed from the input text
alone: the total number of section lines, and, for each symbol line in file
order, the static-ness of its block. Fuelled exactly like `parseAuxF`. -/
def mapShapeF : Nat → List String → Nat × List Bool
  | _, [] => (0, [])
  | 0, _ :: _ => (0, [])
  | fuel + 1, line :: rest =>
    if hasPre line "Timestamp is " then mapShapeF fuel rest
    else if hasPre line "Preferred load address is " then mapShapeF fuel rest
    else if hasFields line sectHeaderFields then
      let c := linesUntilBlank rest
      let s := mapShapeF fuel (rest.drop c)
      (c + s.1, s.2)
    else if hasFields line symHeaderFields || hasPre line "Static symbols" then
      match rest with
      | [] => (0, [])
      | _next :: rest2 =>
        let c := linesUntilBlank rest2
        let s := mapShapeF fuel (rest2.drop c)
        (s.1, List.replicate c (hasPre line "Static symbols") ++ s.2)
    else mapShapeF fuel rest

/-- The reference count with just enough fuel for the line list. -/
def mapShape (lines : List String) : Nat × List Bool :=
  mapShapeF lines.length lines

/-- N of the spec's counting property: the total number of section lines in
the section blocks of a MAP line list (line 0 is the name line). -/
def sectLineCount (lines : List String) : Nat :=
  (mapShape (lines.drop 1)).1

/-- The static-ness, in file order, of every symbol line of a MAP line list:
one entry per symbol line, `false` for lines under a Publics header and
`true` for lines under a `Static symbols` header. -/
def symStaticFlags (lines : List String) : List Bool :=
  (mapShape (lines.drop 1)).2

/-- M of the spec's counting property: the number of symbol lines under
Publics headers. -/
def pubSymCount (lines : List String) : Nat :=
  (symStaticFlags lines).count false

/-- K of the spec's counting property: the number of symbol lines under
`Static symbols` headers. -/
def staticSymCount (lines : List String) : Nat :=
  (symStaticFlags lines).count true

/-- The end-to-end example MAP text of spec section 8. -/
def exampleMapText : String :=
  "FOO\n" ++
  "\n" ++
  "Timestamp is 5e97f112 (Wed Apr 15 22:45:54 2020)\n" ++
  "\n" ++
  "Preferred load address is 00400000\n" ++
  "\n" ++
  "Start         Length     Name                   Class\n" ++
  "0001:00000000 001012c6H .text                   CODE\n" ++
  "\n" ++
  " Address         Publics by Value              Rva+Base   Lib:Object\n" ++
  "\n" ++
  "0001:00000000       ?bar@@YIXH@Z               00401000 f baz.obj\n" ++
  "\n" ++
  "entry point at        0001:000f0290\n"

/-- The Map that parsing the example text must produce. -/
def exampleMap : Map :=
  ⟨"FOO", ⟨2020, 4, 15, 22, 45, 54⟩, 0x400000, ⟨1, 0xf0290⟩,
   [⟨".text", ⟨1, 0⟩, 0x1012c6, .code⟩],
   [⟨"", "?bar@@YIXH@Z", 0x401000, ⟨1, 0⟩, "baz.obj", true, false⟩]⟩

/-- A valid MAP line list whose `Static symbols` block comes before its
Publics block. -/
def staticFirstLines : List String :=
  ["X", "",
   "Static symbols", "",
   "0001:00000000 ?a@@ 00401000 s.obj", "",
   "Address Publics by Value Rva+Base Lib:Object", "",
   "0002:00000000 ?b@@ 00402000 p.obj"]

/-- The Map that parsing `staticFirstLines` produces: the static symbol
comes first. -/
def staticFirstMap : Map :=
  ⟨"X", dateZero, 0, ⟨0, 0⟩, [],
   [⟨"", "?a@@", 0x401000, ⟨1, 0⟩, "s.obj", false, true⟩,
    ⟨"", "?b@@", 0x402000, ⟨2, 0⟩, "p.obj", false, false⟩]⟩

/-- The public-symbol-table header line as it appears in MAP files. -/
def publicsHeaderLine : String :=
  "Address         Publics by Value              Rva+Base   Lib:Object"

/-- The timestamp line made of an arbitrary timestamp token and an
arbitrary parenthesized date text. -/
def timestampLine (tok date : String) : String :=
  "Timestamp is " ++ tok ++ " (" ++ date ++ ")"

@[simp] theorem GoResult.ok_bind (a : α) (f : α → GoResult β) :
    (GoResult.ok a >>= f) = f a := rfl

@[simp] theorem GoResult.err_bind (e : String) (f : α → GoResult β) :
    (GoResult.err e >>= f) = .err e := rfl

@[simp] theorem GoResult.crash_bind (e : String) (f : α → GoResult β) :
    (GoResult.crash e >>= f) = .crash e := rfl

@[simp] theorem GoResult.pure_eq_ok (a : α) : (pure a : GoResult α) = .ok a := rfl

@[simp] theorem goIndex_nil (i : Nat) :
    goIndex ([] : List α) i = .crash "runtime error: index out of range" := rfl

@[simp] theorem goIndex_cons_zero (a : α) (l : List α) : goIndex (a :: l) 0 = .ok a := rfl

@[simp] theorem goIndex_cons_succ (a : α) (l : List α) (i : Nat) :
    goIndex (a :: l) (i + 1) = goIndex l i := rfl

theorem strMk_toList (s : String) : String.mk s.toList = s := by
  cases s
  rfl

theorem strLength_mk (l : List Char) : (String.mk l).length = l.length := rfl

theorem strLength_eq_zero {s : String} : s.length = 0 ↔ s = "" := by
  constructor
  · intro h
    cases s with
    | mk d =>
      cases d with
      | nil => rfl
      | cons a b => simp [String.length] at h
  · intro h
    subst h
    rfl

theorem countBool_add_length (l : List Bool) : l.count false + l.count true = l.length := by
  induction l with
  | nil => rfl
  | cons a l ih => cases a <;> simp [List.count_cons] <;> omega

set_option maxHeartbeats 1000000 in
/-- The fuel of `parseAuxF` is irrelevant as long as it is at least the
number of lines. -/
theorem parseAuxF_congr :
    ∀ (f1 f2 : Nat) (lines : List String) (m : Map), lines.length ≤ f1 →
      lines.length ≤ f2 → parseAuxF f1 lines m = parseAuxF f2 lines m := by
  intro f1
  induction f1 with
  | zero =>
    intro f2 lines m h1 h2
    cases lines with
    | nil => cases f2 <;> rfl
    | cons l rest => simp at h1
  | succ f ih =>
    intro f2 lines m h1 h2
    cases lines with
    | nil => cases f2 <;> rfl
    | cons line rest =>
      cases f2 with
      | zero => simp at h2
      | succ g =>
        have hf : rest.length ≤ f := by simp at h1; omega
        have hg : rest.length ≤ g := by simp at h2; omega
        simp only [parseAuxF, parseStep]
        split_ifs with h1 h2 h3 h4 h5
        · cases ansicParse (String.mk ((line.toList.drop 23).take (line.length - 1 - 23))) with
          | none => rfl
          | some d => exact ih g rest _ hf hg
        · rfl
        · cases goParseUintHex (String.mk (line.toList.drop 26)) with
          | ok v => exact ih g rest _ hf hg
          | err e => rfl
          | crash e => rfl
        · cases hS : parseSections (line :: rest) with
          | ok p =>
            obtain ⟨sects, n⟩ := p
            have hd : (rest.drop (n - 1)).length ≤ rest.length := by
              simp [List.length_drop]
            exact ih g _ _ (le_trans hd hf) (le_trans hd hg)
          | err e => rfl
          | crash e => rfl
        · cases hS : parseSymbols (line :: rest) with
          | ok p =>
            obtain ⟨syms, n⟩ := p
            have hd : (rest.drop (n - 1)).length ≤ rest.length := by
              simp [List.length_drop]
            exact ih g _ _ (le_trans hd hf) (le_trans hd hg)
          | err e => rfl
          | crash e => rfl
        · cases parseSegmentOffset (goTrimSpace (trimPre line "entry point at")) with
          | ok v => exact ih g rest _ hf hg
          | err e => rfl
          | crash e => rfl
        · exact ih g rest _ hf hg

/-- Enough fuel behaves like `parseAux`. -/
theorem parseAuxF_fuel (fuel : Nat) (lines : List String) (m : Map)
    (h : lines.length ≤ fuel) : parseAuxF fuel lines m = parseAux lines m :=
  parseAuxF_congr fuel lines.length lines m h (le_refl _)

/-- One scan-loop step of `parseAux`, written without fuel. -/
theorem parseAux_cons (line : String) (rest : List String) (m : Map) :
    parseAux (line :: rest) m =
      (if hasPre line "Timestamp is " then
        if 24 ≤ line.length then
          match ansicParse (String.mk ((line.toList.drop 23).take (line.length - 1 - 23))) with
          | some date => parseAux rest { m with Date := date }
          | none =>
            .err ("parsing time \"" ++
              String.mk ((line.toList.drop 23).take (line.length - 1 - 23)) ++ "\" as ANSIC")
        else .crash "runtime error: slice bounds out of range"
      else if hasPre line "Preferred load address is " then
        match goParseUintHex (String.mk (line.toList.drop 26)) with
        | .ok baseAddr => parseAux rest { m with BaseAddr := baseAddr }
        | .err e => .err e
        | .crash e => .crash e
      else if hasFields line sectHeaderFields then
        match parseSections (line :: rest) with
        | .ok (sects, n) => parseAux (rest.drop (n - 1)) { m with Sects := m.Sects ++ sects }
        | .err e => .err e
        | .crash e => .crash e
      else if hasFields line symHeaderFields || hasPre line "Static symbols" then
        match parseSymbols (line :: rest) with
        | .ok (syms, n) => parseAux (rest.drop (n - 1)) { m with Syms := m.Syms ++ syms }
        | .err e => .err e
        | .crash e => .crash e
      else if hasPre line "entry point at" then
        match parseSegmentOffset (goTrimSpace (trimPre line "entry point at")) with
        | .ok entry => parseAux rest { m with Entry := entry }
        | .err e => .err e
        | .crash e => .crash e
      else
        parseAux rest m) := by
  show parseAuxF (rest.length + 1) (line :: rest) m = _
  simp only [parseAuxF, parseStep]
  split_ifs with h1 h2 h3 h4 h5
  · rfl
  · rfl
  · rfl
  · cases hS : parseSections (line :: rest) with
    | ok p =>
      obtain ⟨sects, n⟩ := p
      exact parseAuxF_fuel _ _ _ (by simp [List.length_drop])
    | err e => rfl
    | crash e => rfl
  · cases hS : parseSymbols (line :: rest) with
    | ok p =>
      obtain ⟨syms, n⟩ := p
      exact parseAuxF_fuel _ _ _ (by simp [List.length_drop])
    | err e => rfl
    | crash e => rfl
  · rfl
  · rfl

/-- C1: parsing the end-to-end example MAP text of spec section 8 succeeds
and returns the Map with Name "FOO", BaseAddr 0x400000, exactly one Section
named ".text" of type Code with Start {1, 0} and Size 0x1012c6, exactly one
Symbol with MangledName "?bar@@YIXH@Z", Addr 0x401000, IsFunc true,
ObjectName "baz.obj", IsStatic false, and Entry {1, 0xf0290}. -/
theorem parse_example_end_to_end : ParseString exampleMapText = .ok exampleMap := by
  rfl

/-- C10: Parse applied to completely empty input (zero lines, equivalently
the empty string) succeeds and returns the Map with empty Name, zero Date,
zero BaseAddr, zero Entry and empty section and symbol lists; and content-
free input in general — any number of blank lines — never produces an
error, so reaching end of input never by itself makes Parse fail. -/
theorem parse_empty_input :
    Parse [] = .ok ⟨"", dateZero, 0, ⟨0, 0⟩, [], []⟩ ∧
    ParseString "" = .ok ⟨"", dateZero, 0, ⟨0, 0⟩, [], []⟩ ∧
    ∀ (ls : List String) (m : Map), (∀ l ∈ ls, l = "") → parseAux ls m = .ok m := by
  refine ⟨rfl, rfl, ?_⟩
  intro ls
  induction ls with
  | nil => intro m _; rfl
  | cons l rest ih =>
    intro m h
    have hl : l = "" := h l (by simp)
    subst hl
    rw [parseAux_cons]
    rw [if_neg (by decide), if_neg (by decide), if_neg (by decide),
      if_neg (by decide), if_neg (by decide)]
    exact ih m (fun x hx => h x (by simp [hx]))

/-- Witness for C10's quantified conjunct: two blank lines leave the
accumulated Map untouched and succeed. -/
theorem parse_empty_input_witness :
    parseAux ["", ""] ⟨"", dateZero, 0, ⟨0, 0⟩, [], []⟩ =
      .ok ⟨"", dateZero, 0, ⟨0, 0⟩, [], []⟩ :=
  parse_empty_input.2.2 ["", ""] _ (by decide)

/-- Counterexample to C7 as stated: an input containing the line
"Preferred load address is ZZZZ" — as its first line — parses successfully
(the line becomes the linker output name), so not every input containing
that line makes Parse return an error. -/
theorem bad_base_address_first_line_ok :
    Parse ["Preferred load address is ZZZZ"] =
      .ok ⟨"Preferred load address is ZZZZ", dateZero, 0, ⟨0, 0⟩, [], []⟩ := by
  rfl

/-- C7 amended: a field-level format error aborts the whole parse where the
top-level scan dispatches the offending line: whenever the line
"Preferred load address is ZZZZ" is reached by the scan loop (any position
except line 0, outside open section/symbol blocks), Parse returns the
strconv error and no Map, regardless of the sections and symbols already
accumulated and of the remaining lines. -/
theorem bad_base_address_aborts (m : Map) (rest : List String) :
    parseAux ("Preferred load address is ZZZZ" :: rest) m =
      .err "strconv.ParseUint: parsing \"ZZZZ\": invalid syntax" := by
  rw [parseAux_cons]
  rw [if_neg (by decide), if_pos (by decide)]
  rfl

/-- Witness for C7's amended theorem at the empty Map and no further
lines. -/
theorem bad_base_address_aborts_witness :
    parseAux ["Preferred load address is ZZZZ"] {} =
      .err "strconv.ParseUint: parsing \"ZZZZ\": invalid syntax" :=
  bad_base_address_aborts {} []

/-- Counterexample to C3 as stated: when a symbol-block header is the last
line of the input, Parse does not fail with the "unexpected line between
header and list of symbols" parse error — it crashes with an index out of
range instead. -/
theorem symbols_header_last_line_crash :
    Parse ["X", "Static symbols"] =
      .crash "runtime error: index out of range [1] with length 1" := by
  rfl

/-- Counterexample to C2 as stated: a valid MAP input whose
"Static symbols" block precedes its Publics block (M = K = 1) parses
successfully with the static symbol first, so the first M symbols are not
the IsStatic-false ones. -/
theorem static_block_before_publics :
    Parse staticFirstLines = .ok staticFirstMap ∧
    staticFirstMap.Syms.map Symbol.IsStatic = [true, false] := by
  exact ⟨rfl, rfl⟩

/-- Counterexample to C4 as stated: a colon-free input makes
parseSegmentOffset panic (index out of range), not return an error; and an
input with two colons silently succeeds, ignoring the text after the second
colon. -/
theorem segment_offset_colon_anomalies :
    parseSegmentOffset "0001" = .crash "runtime error: index out of range" ∧
    parseSegmentOffset "0001:0002:0003" = .ok ⟨1, 2⟩ := by
  exact ⟨rfl, rfl⟩

/-- Counterexample to C5 as stated: a line of exactly 5 fields whose field 3
is not "f" need not panic — when an earlier field is malformed, parseSymbol
returns an ordinary parse error before ever reaching the tag check. -/
theorem five_field_bad_tag_no_crash :
    goFields "zzz a b g obj" = ["zzz", "a", "b", "g", "obj"] ∧
    parseSymbol "zzz a b g obj" =
      .err "strconv.ParseUint: parsing \"zzz\": invalid syntax" := by
  exact ⟨rfl, rfl⟩

/-- Counterexample to C6 as stated: with a 9-digit timestamp token the
parenthesized substring is a perfectly valid ANSIC date, yet Parse fails,
because the extraction slices from the fixed byte offset 23 rather than
from the opening parenthesis. -/
theorem timestamp_long_token_misextract :
    Parse ["X", "Timestamp is 15e97f112 (Wed Apr 15 22:45:54 2020)"] =
      .err "parsing time \"(Wed Apr 15 22:45:54 2020\" as ANSIC" ∧
    ansicParse "Wed Apr 15 22:45:54 2020" = some ⟨2020, 4, 15, 22, 45, 54⟩ := by
  exact ⟨rfl, rfl⟩

/-- Counterexample to C9 as stated: not every under-4-field line inside a
section block crashes — a one-field line whose single field is not a valid
segment offset makes parseSection return an ordinary error. -/
theorem short_section_line_no_crash :
    goFields "zzz" = ["zzz"] ∧
    parseSection "zzz" = .err "strconv.ParseUint: parsing \"zzz\": invalid syntax" := by
  exact ⟨rfl, rfl⟩

/-- C8: the script emitter writes, for each Symbol in Syms order, exactly
one line set_name(0x%08X, "%s", SN_NOWARN): appending a symbol to a Map
appends exactly its one line, built from the zero-padded (at least 8
digits) uppercase-hex Addr and the verbatim MangledName; and for the
example symbol (Addr 0x401000, MangledName "?bar@@YIXH@Z") the emitted
line is bit-exact. -/
theorem dump_ida_script_emission :
    (∀ (m : Map) (sym : Symbol),
      dumpIdaScript { m with Syms := m.Syms ++ [sym] } =
        dumpIdaScript m ++
          ("set_name(0x" ++ goHex08 sym.Addr ++ ", \"" ++ sym.MangledName ++ "\", SN_NOWARN)\n")) ∧
    (∀ n : Nat, 8 ≤ (goHex08 n).length) ∧
    dumpIdaScript exampleMap = "set_name(0x00401000, \"?bar@@YIXH@Z\", SN_NOWARN)\n" := by
  refine ⟨?_, ?_, rfl⟩
  · intro m sym
    show (m.Syms ++ [sym]).foldl _ "" = _
    rw [List.foldl_append]
    simp only [List.foldl_cons, List.foldl_nil]
    simp [dumpIdaScript, String.append_assoc]
  · intro n
    simp only [goHex08]
    split_ifs with h
    · rw [String.length_append, strLength_mk, List.length_replicate]
      omega
    · omega

/-- C3 amended: when a symbol-block header line (the Publics token line or a
line beginning with "Static symbols") is recognized and a following line
exists, that line must be blank — a non-blank following line is the fatal
"unexpected line between header and list of symbols" parse error, whatever
was accumulated before and whatever follows; but when the header is the
last line, so that no following line exists, the parser panics with an
index out of range instead of returning a parse error. -/
theorem symbols_header_separator (m : Map) (rest : List String) (next : String)
    (h : next ≠ "") :
    (parseAux (publicsHeaderLine :: next :: rest) m =
      .err ("unexpected line between header and list of symbols; expected empty line, got \"" ++ next ++ "\"")) ∧
    (parseAux ("Static symbols" :: next :: rest) m =
      .err ("unexpected line between header and list of symbols; expected empty line, got \"" ++ next ++ "\"")) ∧
    parseAux [publicsHeaderLine] m =
      .crash "runtime error: index out of range [1] with length 1" ∧
    parseAux ["Static symbols"] m =
      .crash "runtime error: index out of range [1] with length 1" := by
  have hne : next.length ≠ 0 := fun hh => h (strLength_eq_zero.mp hh)
  refine ⟨?_, ?_, rfl, rfl⟩
  · rw [parseAux_cons]
    rw [if_neg (by decide), if_neg (by decide), if_neg (by decide), if_pos (by decide)]
    simp only [parseSymbols]
    rw [if_pos hne]
  · rw [parseAux_cons]
    rw [if_neg (by decide), if_neg (by decide), if_neg (by decide), if_pos (by decide)]
    simp only [parseSymbols]
    rw [if_pos hne]

/-- Witness for C3's amended theorem: concrete instances of all four
conjuncts at the empty Map, no further lines, and the non-blank line "x". -/
theorem symbols_header_separator_witness :
    (parseAux [publicsHeaderLine, "x"] {} =
      .err ("unexpected line between header and list of symbols; expected empty line, got \"" ++ "x" ++ "\"")) ∧
    (parseAux ["Static symbols", "x"] {} =
      .err ("unexpected line between header and list of symbols; expected empty line, got \"" ++ "x" ++ "\"")) ∧
    parseAux [publicsHeaderLine] {} =
      .crash "runtime error: index out of range [1] with length 1" ∧
    parseAux ["Static symbols"] {} =
      .crash "runtime error: index out of range [1] with length 1" :=
  symbols_header_separator {} [] "x" (by decide)

theorem splitOnChar_no_sep {sep : Char} :
    ∀ {A : List Char}, sep ∉ A → splitOnChar sep A = [A] := by
  intro A
  induction A with
  | nil => intro _; rfl
  | cons c cs ih =>
    intro h
    have hc : ¬c = sep := fun hh => h (by simp [hh])
    have hcs : sep ∉ cs := fun hh => h (by simp [hh])
    simp only [splitOnChar, if_neg hc, ih hcs]

theorem splitOnChar_append (sep : Char) :
    ∀ (A B : List Char), sep ∉ A →
      splitOnChar sep (A ++ sep :: B) = A :: splitOnChar sep B := by
  intro A
  induction A with
  | nil => intro B _; simp [splitOnChar]
  | cons c cs ih =>
    intro B h
    have hc : ¬c = sep := fun hh => h (by simp [hh])
    have hcs : sep ∉ cs := fun hh => h (by simp [hh])
    show splitOnChar sep (c :: (cs ++ sep :: B)) = _
    simp only [splitOnChar, if_neg hc, ih B hcs]

theorem goParseUintHex_ok_no_colon {s : String} {v : Nat}
    (h : goParseUintHex s = .ok v) : ':' ∉ s.toList := by
  intro hmem
  simp only [goParseUintHex] at h
  split_ifs at h with h1 h2 h3
  exact absurd (List.all_eq_true.mp h2 ':' hmem) (by decide)

theorem strToList_append (a b : String) : (a ++ b).toList = a.toList ++ b.toList := rfl

/-- C4 amended: parseSegmentOffset splits on every colon and reads the first
two pieces as hexadecimal. For `"<hex>:<hex>"` it returns {SegNum, Offset};
a non-hex piece is a returned error; but an input with NO colon panics with
an index out of range once its digits parse (and errors earlier when they
do not), rather than returning a missing-colon parse error; and inputs with
more than one colon silently succeed, ignoring everything after the second
colon. -/
theorem segment_offset_parsing :
    (∀ (a b : String) (x y : Nat), goParseUintHex a = .ok x → goParseUintHex b = .ok y →
      parseSegmentOffset (a ++ ":" ++ b) = .ok ⟨int64OfUint64 x, y⟩) ∧
    (∀ (a b c : String) (x y : Nat), goParseUintHex a = .ok x → goParseUintHex b = .ok y →
      parseSegmentOffset (a ++ ":" ++ b ++ ":" ++ c) = .ok ⟨int64OfUint64 x, y⟩) ∧
    (∀ (s : String) (v : Nat), ':' ∉ s.toList → goParseUintHex s = .ok v →
      parseSegmentOffset s = .crash "runtime error: index out of range") ∧
    (∀ (s e : String), ':' ∉ s.toList → goParseUintHex s = .err e →
      parseSegmentOffset s = .err e) := by
  refine ⟨?_, ?_, ?_, ?_⟩
  · intro a b x y ha hb
    have hsplit : goSplit (a ++ ":" ++ b) ':' = [a, b] := by
      show (splitOnChar ':' (a ++ ":" ++ b).toList).map String.mk = [a, b]
      rw [strToList_append, strToList_append]
      rw [show (":".toList : List Char) = [':'] from rfl, List.append_assoc,
        List.singleton_append]
      rw [splitOnChar_append ':' a.toList b.toList (goParseUintHex_ok_no_colon ha),
        splitOnChar_no_sep (goParseUintHex_ok_no_colon hb)]
      simp [strMk_toList]
    simp only [parseSegmentOffset, hsplit, goIndex_cons_zero, GoResult.ok_bind,
      goIndex_cons_succ, ha, hb]
  · intro a b c x y ha hb
    have hsplit : goSplit (a ++ ":" ++ b ++ ":" ++ c) ':' =
        a :: b :: (splitOnChar ':' c.toList).map String.mk := by
      show (splitOnChar ':' (a ++ ":" ++ b ++ ":" ++ c).toList).map String.mk = _
      rw [strToList_append, strToList_append, strToList_append, strToList_append]
      rw [show (":".toList : List Char) = [':'] from rfl]
      rw [show ((a.toList ++ [':']) ++ b.toList ++ [':']) ++ c.toList =
        a.toList ++ ':' :: (b.toList ++ ':' :: c.toList) from by simp]
      rw [splitOnChar_append ':' _ _ (goParseUintHex_ok_no_colon ha),
        splitOnChar_append ':' _ _ (goParseUintHex_ok_no_colon hb)]
      simp [strMk_toList]
    simp only [parseSegmentOffset, hsplit, goIndex_cons_zero, GoResult.ok_bind,
      goIndex_cons_succ, ha, hb]
  · intro s v hnc hv
    have hsplit : goSplit s ':' = [s] := by
      show (splitOnChar ':' s.toList).map String.mk = [s]
      rw [splitOnChar_no_sep hnc]
      simp [strMk_toList]
    simp only [parseSegmentOffset, hsplit, goIndex_cons_zero, GoResult.ok_bind, hv,
      goIndex_cons_succ, goIndex_nil, GoResult.crash_bind]
  · intro s e hnc he
    have hsplit : goSplit s ':' = [s] := by
      show (splitOnChar ':' s.toList).map String.mk = [s]
      rw [splitOnChar_no_sep hnc]
      simp [strMk_toList]
    simp only [parseSegmentOffset, hsplit, goIndex_cons_zero, GoResult.ok_bind, he,
      GoResult.err_bind]

/-- Witness for C4's amended theorem: the canonical two-part segment offset
of the spec, a three-part input that silently succeeds, a colon-free
all-hex input that panics, and a colon-free non-hex input that errors. -/
theorem segment_offset_parsing_witness :
    parseSegmentOffset ("0001" ++ ":" ++ "00093247") = .ok ⟨int64OfUint64 1, 0x93247⟩ ∧
    parseSegmentOffset ("0001" ++ ":" ++ "0002" ++ ":" ++ "0003") = .ok ⟨int64OfUint64 1, 2⟩ ∧
    parseSegmentOffset "0001" = .crash "runtime error: index out of range" ∧
    parseSegmentOffset "00ZZ" = .err "strconv.ParseUint: parsing \"00ZZ\": invalid syntax" :=
  ⟨segment_offset_parsing.1 "0001" "00093247" 1 0x93247 (by rfl) (by rfl),
   segment_offset_parsing.2.1 "0001" "0002" "0003" 1 2 (by rfl) (by rfl),
   segment_offset_parsing.2.2.1 "0001" 1 (by decide) (by rfl),
   segment_offset_parsing.2.2.2 "00ZZ" _ (by decide) (by rfl)⟩

/-- C5 amended: on a symbol line of exactly 5 whitespace-separated fields
whose segment-offset field and address field both parse, the tag field
(field 3) decides the outcome: the literal "f" sets IsFunc true, and any
other tag makes parseSymbol panic with the explicit
"support for symbol type ... not yet implemented" error rather than being
silently ignored; a 4-field line with the same well-formed fields yields a
symbol with IsFunc false. (A malformed earlier field instead produces an
ordinary returned parse error before the tag is inspected.) -/
theorem symbol_tag_handling :
    (∀ (s f0 f1 f2 f3 f4 : String) (so : SegmentOffset) (a : Nat),
      goFields s = [f0, f1, f2, f3, f4] → parseSegmentOffset f0 = .ok so →
      goParseUintHex f2 = .ok a →
      (f3 = "f" → parseSymbol s = .ok ⟨"", f1, a, so, f4, true, false⟩) ∧
      (f3 ≠ "f" → parseSymbol s =
        .crash ("support for symbol type \"" ++ f3 ++ "\" not yet implemented"))) ∧
    (∀ (s f0 f1 f2 f3 : String) (so : SegmentOffset) (a : Nat),
      goFields s = [f0, f1, f2, f3] → parseSegmentOffset f0 = .ok so →
      goParseUintHex f2 = .ok a →
      parseSymbol s = .ok ⟨"", f1, a, so, f3, false, false⟩) := by
  constructor
  · intro s f0 f1 f2 f3 f4 so a hgf hso ha
    constructor
    · intro hf
      subst hf
      simp only [parseSymbol, hgf, goIndex_cons_zero, GoResult.ok_bind, hso,
        goIndex_cons_succ, ha, List.length_cons, List.length_nil]
      rfl
    · intro hf
      simp only [parseSymbol, hgf, goIndex_cons_zero, GoResult.ok_bind, hso,
        goIndex_cons_succ, ha, List.length_cons, List.length_nil]
      rw [if_true, if_neg hf]
      rfl
  · intro s f0 f1 f2 f3 so a hgf hso ha
    simp only [parseSymbol, hgf, goIndex_cons_zero, GoResult.ok_bind, hso,
      goIndex_cons_succ, ha, List.length_cons, List.length_nil]
    rfl

/-- Witness for C5's amended theorem at concrete 5-field lines with tag "f"
and tag "g", and a concrete 4-field line. -/
theorem symbol_tag_handling_witness :
    (parseSymbol "0001:00000000 ?bar@@YIXH@Z 00401000 f baz.obj" =
      .ok ⟨"", "?bar@@YIXH@Z", 0x401000, ⟨1, 0⟩, "baz.obj", true, false⟩) ∧
    (parseSymbol "0001:00000000 ?bar@@YIXH@Z 00401000 g baz.obj" =
      .crash ("support for symbol type \"" ++ "g" ++ "\" not yet implemented")) ∧
    parseSymbol "0002:00000058 ?qux@@3PBDB 00503058 baz.obj" =
      .ok ⟨"", "?qux@@3PBDB", 0x503058, ⟨2, 0x58⟩, "baz.obj", false, false⟩ :=
  ⟨(symbol_tag_handling.1 "0001:00000000 ?bar@@YIXH@Z 00401000 f baz.obj"
      "0001:00000000" "?bar@@YIXH@Z" "00401000" "f" "baz.obj" ⟨1, 0⟩ 0x401000
      (by rfl) (by rfl) (by rfl)).1 (by rfl),
   (symbol_tag_handling.1 "0001:00000000 ?bar@@YIXH@Z 00401000 g baz.obj"
      "0001:00000000" "?bar@@YIXH@Z" "00401000" "g" "baz.obj" ⟨1, 0⟩ 0x401000
      (by rfl) (by rfl) (by rfl)).2 (by decide),
   symbol_tag_handling.2 "0002:00000058 ?qux@@3PBDB 00503058 baz.obj"
      "0002:00000058" "?qux@@3PBDB" "00503058" "baz.obj" ⟨2, 0x58⟩ 0x503058
      (by rfl) (by rfl) (by rfl)⟩

/-- C6 amended: on a line "Timestamp is <tok> (<date>)" the parser does not
locate the parentheses — it slices from the fixed byte offset 23 (the
length of "Timestamp is 5e97f112 (") to the last byte exclusive. When the
timestamp token has exactly 8 characters that slice is precisely the
parenthesized date text: it is parsed with the ANSIC layout into Map.Date,
and its failure to parse in that layout is a fatal error that aborts Parse.
(With a token of any other length the slice misses the parentheses; see the
counterexample.) -/
theorem timestamp_extraction (m : Map) (rest : List String) (tok date : String)
    (htok : tok.length = 8) :
    (∀ dt, ansicParse date = some dt →
      parseAux (timestampLine tok date :: rest) m = parseAux rest { m with Date := dt }) ∧
    (ansicParse date = none →
      parseAux (timestampLine tok date :: rest) m =
        .err ("parsing time \"" ++ date ++ "\" as ANSIC")) := by
  have h13 : ("Timestamp is " : String).length = 13 := rfl
  have h2 : (" (" : String).length = 2 := rfl
  have h1 : (")" : String).length = 1 := rfl
  have hlen : (timestampLine tok date).length = 24 + date.length := by
    simp only [timestampLine, String.length_append, h13, h2, h1, htok]
    omega
  have htokl : tok.toList.length = 8 := htok
  have hA : (("Timestamp is ".toList ++ tok.toList) ++ " (".toList).length = 23 := by
    simp only [List.length_append, htokl]
    rfl
  have hsplit : (timestampLine tok date).toList =
      (("Timestamp is ".toList ++ tok.toList) ++ " (".toList) ++ (date.toList ++ [')']) := by
    simp only [timestampLine, strToList_append]
    rw [show (")" : String).toList = [')'] from rfl]
    simp [List.append_assoc]
  have htake : 24 + date.length - 1 - 23 = date.toList.length := by
    have : date.toList.length = date.length := rfl
    omega
  have hraw : String.mk (((timestampLine tok date).toList.drop 23).take
      ((timestampLine tok date).length - 1 - 23)) = date := by
    rw [hlen, hsplit, htake,
      show (23 : Nat) = (("Timestamp is ".toList ++ tok.toList) ++ " (".toList).length
        from hA.symm,
      List.drop_left, List.take_left]
    exact strMk_toList date
  have hpre : hasPre (timestampLine tok date) "Timestamp is " = true := by
    simp only [hasPre]
    rw [List.isPrefixOf_iff_prefix, hsplit]
    exact ⟨tok.toList ++ " (".toList ++ (date.toList ++ [')']), by simp [List.append_assoc]⟩
  constructor
  · intro dt hd
    rw [parseAux_cons, if_pos hpre, if_pos (show 24 ≤ _ by rw [hlen]; omega)]
    rw [hraw, hd]
  · intro hd
    rw [parseAux_cons, if_pos hpre, if_pos (show 24 ≤ _ by rw [hlen]; omega)]
    rw [hraw, hd]

/-- Witness for C6's amended theorem: the example timestamp line with its
8-character token stores the ANSIC-parsed date in Map.Date. -/
theorem timestamp_extraction_witness :
    parseAux [timestampLine "5e97f112" "Wed Apr 15 22:45:54 2020"] {} =
      parseAux [] { ({} : Map) with Date := ⟨2020, 4, 15, 22, 45, 54⟩ } :=
  (timestamp_extraction {} [] "5e97f112" "Wed Apr 15 22:45:54 2020" (by rfl)).1
    ⟨2020, 4, 15, 22, 45, 54⟩ (by rfl)

/-- C9 amended: the field accesses of parseSection and parseSymbol are
partial, so a non-blank line inside an open block with too few fields never
yields a value — it either crashes with an out-of-range index access or,
when an earlier field is already malformed, returns a parse error; in
particular a section line of exactly 3 well-formed fields and a symbol line
of exactly 2 well-formed fields crash, and such a crash propagates out of a
full Parse run (the error-return branch is not the only exit on malformed
lines). -/
theorem short_line_partial_access :
    (∀ s : String, (goFields s).length < 4 → (parseSection s).isOk = false) ∧
    (∀ (s f0 f1 f2 : String) (so : SegmentOffset) (v : Nat),
      goFields s = [f0, f1, f2] → parseSegmentOffset f0 = .ok so →
      goParseUintHex (trimSuf f1 "H") = .ok v →
      parseSection s = .crash "runtime error: index out of range") ∧
    (∀ s : String, (goFields s).length < 3 → (parseSymbol s).isOk = false) ∧
    (∀ (s f0 f1 : String) (so : SegmentOffset),
      goFields s = [f0, f1] → parseSegmentOffset f0 = .ok so →
      parseSymbol s = .crash "runtime error: index out of range") ∧
    Parse ["N", "", "Start         Length     Name                   Class",
      "0001:00000000 001012c6H .text"] = .crash "runtime error: index out of range" := by
  refine ⟨?_, ?_, ?_, ?_, by rfl⟩
  · intro s h
    rcases hgf : goFields s with _ | ⟨f0, _ | ⟨f1, _ | ⟨f2, _ | ⟨f3, fs⟩⟩⟩⟩
    · simp [parseSection, hgf, GoResult.isOk]
    · simp only [parseSection, hgf, goIndex_cons_zero, GoResult.ok_bind]
      cases parseSegmentOffset f0 <;> simp [GoResult.isOk]
    · simp only [parseSection, hgf, goIndex_cons_zero, GoResult.ok_bind, goIndex_cons_succ]
      cases parseSegmentOffset f0 <;> simp only [GoResult.ok_bind, GoResult.err_bind,
        GoResult.crash_bind, GoResult.isOk] <;> try rfl
      cases goParseUintHex (trimSuf f1 "H") <;> simp [GoResult.isOk]
    · simp only [parseSection, hgf, goIndex_cons_zero, GoResult.ok_bind, goIndex_cons_succ]
      cases parseSegmentOffset f0 <;> simp only [GoResult.ok_bind, GoResult.err_bind,
        GoResult.crash_bind, GoResult.isOk] <;> try rfl
      cases goParseUintHex (trimSuf f1 "H") <;> simp [GoResult.isOk]
    · rw [hgf] at h
      simp only [List.length_cons] at h
      omega
  · intro s f0 f1 f2 so v hgf hso hv
    simp only [parseSection, hgf, goIndex_cons_zero, GoResult.ok_bind,
      goIndex_cons_succ, hso, hv, goIndex_nil, GoResult.crash_bind]
  · intro s h
    rcases hgf : goFields s with _ | ⟨f0, _ | ⟨f1, _ | ⟨f2, fs⟩⟩⟩
    · simp [parseSymbol, hgf, GoResult.isOk]
    · simp only [parseSymbol, hgf, goIndex_cons_zero, GoResult.ok_bind]
      cases parseSegmentOffset f0 <;> simp [GoResult.isOk]
    · simp only [parseSymbol, hgf, goIndex_cons_zero, GoResult.ok_bind, goIndex_cons_succ]
      cases parseSegmentOffset f0 <;> simp [GoResult.isOk]
    · rw [hgf] at h
      simp only [List.length_cons] at h
      omega
  · intro s f0 f1 so hgf hso
    simp only [parseSymbol, hgf, goIndex_cons_zero, GoResult.ok_bind,
      goIndex_cons_succ, hso, goIndex_nil, GoResult.crash_bind]

/-- Witness for C9's amended theorem, at a blank-field line, concrete
3-field section and 2-field symbol lines, and an unparsable 2-field
section line. -/
theorem short_line_partial_access_witness :
    ((parseSection "x").isOk = false) ∧
    parseSection "0001:00000000 001012c6H .text" = .crash "runtime error: index out of range" ∧
    ((parseSymbol "x y").isOk = false) ∧
    parseSymbol "0001:00000000 ?bar@@YIXH@Z" = .crash "runtime error: index out of range" :=
  ⟨short_line_partial_access.1 "x" (by decide),
   short_line_partial_access.2.1 "0001:00000000 001012c6H .text"
     "0001:00000000" "001012c6H" ".text" ⟨1, 0⟩ 0x1012c6 (by rfl) (by rfl) (by rfl),
   short_line_partial_access.2.2.1 "x y" (by decide),
   short_line_partial_access.2.2.2.1 "0001:00000000 ?bar@@YIXH@Z"
     "0001:00000000" "?bar@@YIXH@Z" ⟨1, 0⟩ (by rfl) (by rfl)⟩

theorem parseSectionsLoop_ok :
    ∀ (ls : List String) (sects : List Section) (k : Nat),
      parseSectionsLoop ls = .ok (sects, k) →
      sects.length = k ∧ k = linesUntilBlank ls := by
  intro ls
  induction ls with
  | nil =>
    intro sects k h
    simp only [parseSectionsLoop, GoResult.ok.injEq, Prod.mk.injEq] at h
    obtain ⟨h1, h2⟩ := h
    subst h1
    subst h2
    simp [linesUntilBlank]
  | cons l rest ih =>
    intro sects k h
    simp only [parseSectionsLoop] at h
    split_ifs at h with hb
    · simp only [GoResult.ok.injEq, Prod.mk.injEq] at h
      obtain ⟨h1, h2⟩ := h
      subst h1
      subst h2
      simp [linesUntilBlank, hb]
    · cases hps : parseSection l with
      | err e => simp only [hps] at h; exact GoResult.noConfusion h
      | crash e => simp only [hps] at h; exact GoResult.noConfusion h
      | ok sect =>
        simp only [hps] at h
        cases hloop : parseSectionsLoop rest with
        | err e => simp only [hloop] at h; exact GoResult.noConfusion h
        | crash e => simp only [hloop] at h; exact GoResult.noConfusion h
        | ok p =>
          obtain ⟨sects0, k0⟩ := p
          simp only [hloop, GoResult.ok.injEq, Prod.mk.injEq] at h
          obtain ⟨h1, h2⟩ := h
          subst h1
          subst h2
          obtain ⟨ihl, ihk⟩ := ih sects0 k0 hloop
          refine ⟨by simp [ihl], ?_⟩
          simp only [linesUntilBlank, if_neg hb]
          omega

theorem parseSymbolsLoop_ok :
    ∀ (b : Bool) (ls : List String) (syms : List Symbol) (k : Nat),
      parseSymbolsLoop b ls = .ok (syms, k) →
      syms.length = k ∧ k = linesUntilBlank ls ∧
        syms.map Symbol.IsStatic = List.replicate k b := by
  intro b ls
  induction ls with
  | nil =>
    intro syms k h
    simp only [parseSymbolsLoop, GoResult.ok.injEq, Prod.mk.injEq] at h
    obtain ⟨h1, h2⟩ := h
    subst h1
    subst h2
    simp [linesUntilBlank]
  | cons l rest ih =>
    intro syms k h
    simp only [parseSymbolsLoop] at h
    split_ifs at h with hb
    · simp only [GoResult.ok.injEq, Prod.mk.injEq] at h
      obtain ⟨h1, h2⟩ := h
      subst h1
      subst h2
      simp [linesUntilBlank, hb]
    · cases hps : parseSymbol l with
      | err e => simp only [hps] at h; exact GoResult.noConfusion h
      | crash e => simp only [hps] at h; exact GoResult.noConfusion h
      | ok sym =>
        simp only [hps] at h
        cases hloop : parseSymbolsLoop b rest with
        | err e => simp only [hloop] at h; exact GoResult.noConfusion h
        | crash e => simp only [hloop] at h; exact GoResult.noConfusion h
        | ok p =>
          obtain ⟨syms0, k0⟩ := p
          simp only [hloop, GoResult.ok.injEq, Prod.mk.injEq] at h
          obtain ⟨h1, h2⟩ := h
          subst h1
          subst h2
          obtain ⟨ihl, ihk, ihf⟩ := ih syms0 k0 hloop
          refine ⟨by simp [ihl], ?_, ?_⟩
          · simp only [linesUntilBlank, if_neg hb]
            omega
          · simp only [List.map_cons, ihf, List.replicate_succ]

/-- One-step unfolding of `parseSymbols` at a header with a following
line. -/
theorem parseSymbols_cons_cons (header next : String) (rest2 : List String) :
    parseSymbols (header :: next :: rest2) =
      if next.length ≠ 0 then
        .err ("unexpected line between header and list of symbols; expected empty line, got \"" ++ next ++ "\"")
      else
        match parseSymbolsLoop (hasPre header "Static symbols") rest2 with
        | .err e => .err e
        | .crash e => .crash e
        | .ok (syms, k) => .ok (syms, 2 + k) := rfl

/-- Running the scan loop to a successful Map adds exactly the input's
section-line count to Sects and the input's per-block static flags, in file
order, to Syms. -/
theorem parseAuxF_ok_shape :
    ∀ (fuel : Nat) (lines : List String) (m m' : Map),
      parseAuxF fuel lines m = .ok m' →
      m'.Sects.length = m.Sects.length + (mapShapeF fuel lines).1 ∧
      m'.Syms.map Symbol.IsStatic =
        m.Syms.map Symbol.IsStatic ++ (mapShapeF fuel lines).2 := by
  intro fuel
  induction fuel with
  | zero =>
    intro lines m m' h
    cases lines with
    | nil =>
      simp only [parseAuxF, GoResult.ok.injEq] at h
      subst h
      simp [mapShapeF]
    | cons l rest => exact GoResult.noConfusion h
  | succ f ih =>
    intro lines m m' h
    cases lines with
    | nil =>
      simp only [parseAuxF, GoResult.ok.injEq] at h
      subst h
      simp [mapShapeF]
    | cons line rest =>
      simp only [parseAuxF, parseStep] at h
      split_ifs at h with h1 hl h2 h3 h4 h5
      · cases hA : ansicParse (String.mk ((line.toList.drop 23).take (line.length - 1 - 23))) with
        | some d =>
          simp only [hA] at h
          have hrec := ih rest _ m' h
          simp only [mapShapeF, if_pos h1]
          exact hrec
        | none =>
          simp only [hA] at h
          exact GoResult.noConfusion h
      · cases hP : goParseUintHex (String.mk (line.toList.drop 26)) with
        | ok v =>
          simp only [hP] at h
          have hrec := ih rest _ m' h
          simp only [mapShapeF, if_neg h1, if_pos h2]
          exact hrec
        | err e =>
          simp only [hP] at h
          exact GoResult.noConfusion h
        | crash e =>
          simp only [hP] at h
          exact GoResult.noConfusion h
      · cases hS : parseSections (line :: rest) with
        | ok p =>
          obtain ⟨sects, n⟩ := p
          simp only [hS] at h
          simp only [parseSections] at hS
          cases hL : parseSectionsLoop ((line :: rest).drop 1) with
          | err e =>
            simp only [hL] at hS
            exact GoResult.noConfusion hS
          | crash e =>
            simp only [hL] at hS
            exact GoResult.noConfusion hS
          | ok q =>
            obtain ⟨sects0, k⟩ := q
            simp only [hL, GoResult.ok.injEq, Prod.mk.injEq] at hS
            obtain ⟨hS1, hS2⟩ := hS
            subst hS1
            subst hS2
            have hL' : parseSectionsLoop rest = .ok (sects0, k) := hL
            obtain ⟨hlen0, hk⟩ := parseSectionsLoop_ok rest sects0 k hL'
            have hdrop : 1 + k - 1 = k := by omega
            rw [hdrop] at h
            have hrec := ih (rest.drop k) _ m' h
            simp only [mapShapeF, if_neg h1, if_neg h2, if_pos h3]
            rw [← hk]
            constructor
            · have hs1' : m'.Sects.length =
                  (m.Sects ++ sects0).length + (mapShapeF f (rest.drop k)).1 := hrec.1
              rw [List.length_append, hlen0] at hs1'
              omega
            · exact hrec.2
        | err e =>
          simp only [hS] at h
          exact GoResult.noConfusion h
        | crash e =>
          simp only [hS] at h
          exact GoResult.noConfusion h
      · cases hS : parseSymbols (line :: rest) with
        | ok p =>
          obtain ⟨syms, n⟩ := p
          simp only [hS] at h
          cases rest with
          | nil => exact GoResult.noConfusion hS
          | cons next rest2 =>
            rw [parseSymbols_cons_cons] at hS
            split_ifs at hS with hne
            cases hL : parseSymbolsLoop (hasPre line "Static symbols") rest2 with
            | err e =>
              simp only [hL] at hS
              exact GoResult.noConfusion hS
            | crash e =>
              simp only [hL] at hS
              exact GoResult.noConfusion hS
            | ok q =>
              obtain ⟨syms0, k⟩ := q
              simp only [hL, GoResult.ok.injEq, Prod.mk.injEq] at hS
              obtain ⟨hS1, hS2⟩ := hS
              subst hS1
              subst hS2
              obtain ⟨hlen0, hk, hflags⟩ :=
                parseSymbolsLoop_ok (hasPre line "Static symbols") rest2 syms0 k hL
              have hdrop : (next :: rest2).drop (2 + k - 1) = rest2.drop k := by
                rw [show 2 + k - 1 = k + 1 from by omega]
                simp [List.drop_succ_cons]
              rw [hdrop] at h
              have hrec := ih (rest2.drop k) _ m' h
              simp only [mapShapeF, if_neg h1, if_neg h2, if_neg h3, if_pos h4]
              rw [← hk]
              constructor
              · exact hrec.1
              · have hs2' : m'.Syms.map Symbol.IsStatic =
                    (m.Syms ++ syms0).map Symbol.IsStatic ++
                      (mapShapeF f (rest2.drop k)).2 := hrec.2
                rw [List.map_append, hflags, List.append_assoc] at hs2'
                exact hs2'
        | err e =>
          simp only [hS] at h
          exact GoResult.noConfusion h
        | crash e =>
          simp only [hS] at h
          exact GoResult.noConfusion h
      · cases hE : parseSegmentOffset (goTrimSpace (trimPre line "entry point at")) with
        | ok v =>
          simp only [hE] at h
          have hrec := ih rest _ m' h
          simp only [mapShapeF, if_neg h1, if_neg h2, if_neg h3, if_neg h4]
          exact hrec
        | err e =>
          simp only [hE] at h
          exact GoResult.noConfusion h
        | crash e =>
          simp only [hE] at h
          exact GoResult.noConfusion h
      · have hrec := ih rest _ m' h
        simp only [mapShapeF, if_neg h1, if_neg h2, if_neg h3, if_neg h4]
        exact hrec

/-- C2 amended: for every valid MAP text (one Parse accepts), len(Sects) is
the total number N of section lines, len(Syms) is M + K (M public-block
symbol lines, K static-block symbol lines), and the IsStatic tags of Syms
follow the blocks in file order — each block contributes its lines
contiguously, tagged false under a Publics header and true under a
"Static symbols" header. The first-M-false/last-K-true split of the
original claim holds only when every Publics block precedes every static
block (the standard layout); blocks may come in either order, so a static
block occurring first puts its IsStatic-true symbols first. -/
theorem parse_ok_counts (lines : List String) (m : Map) (h : Parse lines = .ok m) :
    m.Sects.length = sectLineCount lines ∧
    m.Syms.map Symbol.IsStatic = symStaticFlags lines ∧
    m.Syms.length = pubSymCount lines + staticSymCount lines := by
  have key : m.Sects.length = sectLineCount lines ∧
      m.Syms.map Symbol.IsStatic = symStaticFlags lines := by
    cases lines with
    | nil =>
      simp only [Parse, GoResult.ok.injEq] at h
      subst h
      exact ⟨rfl, rfl⟩
    | cons l0 rest =>
      simp only [Parse] at h
      have hrec := parseAuxF_ok_shape rest.length rest { Name := l0 } m h
      constructor
      · have h1 : m.Sects.length = 0 + (mapShapeF rest.length rest).1 := hrec.1
        show m.Sects.length = (mapShapeF rest.length rest).1
        omega
      · have h2 : m.Syms.map Symbol.IsStatic =
            [] ++ (mapShapeF rest.length rest).2 := hrec.2
        show m.Syms.map Symbol.IsStatic = (mapShapeF rest.length rest).2
        simpa using h2
  obtain ⟨hsect, hflags⟩ := key
  refine ⟨hsect, hflags, ?_⟩
  have hlm : (m.Syms.map Symbol.IsStatic).length = m.Syms.length :=
    List.length_map _ _
  rw [← hlm, hflags]
  exact (countBool_add_length (symStaticFlags lines)).symm

/-- Witness for C2's amended theorem at the static-block-first input. -/
theorem parse_ok_counts_witness :
    staticFirstMap.Sects.length = sectLineCount staticFirstLines ∧
    staticFirstMap.Syms.map Symbol.IsStatic = symStaticFlags staticFirstLines ∧
    staticFirstMap.Syms.length =
      pubSymCount staticFirstLines + staticSymCount staticFirstLines :=
  parse_ok_counts staticFirstLines staticFirstMap (by rfl)

end Mapfile
